import Mathlib

/-!
Verification of the OpenAPI change-analysis scripts.

The repository compares two OpenAPI JSON documents, classifies the
differences into API-affecting and non-API-affecting changes, and renders
a Markdown report.  The embedding below models:

  * the JSON document trees handled by the scripts (`Json`),
  * the structural differ (the scripts delegate this to the external
    DeepDiff library, which is not part of the repository; it is modelled
    from the specification, section 4.1),
  * the path helpers `get_by_path` of `openapi_diff.py` and
    `_get_by_path` of `app/comparator.py` (identical code),
  * the rule function `_is_api_change` of `app/comparator.py`,
  * the classification and report pipeline `classify_changes` and
    `analyze_changes` of `analyze_openapi_changes.py`, with the external
    OpenAI call represented by an explicit outcome parameter,
  * the categorized renderer `_generate_categorized_diff` of
    `app/comparator.py`.
-/

/-- A JSON value as loaded by `json.load`: `null`, booleans, numbers
(modelled as integers; no claim concerns fractional literals), strings,
arrays, and objects with string keys.  Python `None` is `Json.null`. -/
inductive Json where
  | null : Json
  | bool (b : Bool) : Json
  | num (n : Int) : Json
  | str (s : String) : Json
  | arr (xs : List Json) : Json
  | obj (fields : List (String × Json)) : Json

mutual

/-- Boolean deep structural equality on `Json`, matching Python `==` on
parsed JSON values (object key order aside, which the scripts never rely
on for equality of whole documents). -/
def beqJ : Json → Json → Bool
  | Json.null, Json.null => true
  | Json.bool a, Json.bool b => a == b
  | Json.num a, Json.num b => a == b
  | Json.str a, Json.str b => a == b
  | Json.arr xs, Json.arr ys => beqL xs ys
  | Json.obj fs, Json.obj gs => beqF fs gs
  | _, _ => false

/-- Elementwise `beqJ` on lists of values. -/
def beqL : List Json → List Json → Bool
  | [], [] => true
  | x :: xs, y :: ys => beqJ x y && beqL xs ys
  | _, _ => false

/-- Elementwise `beqJ` on object field lists. -/
def beqF : List (String × Json) → List (String × Json) → Bool
  | [], [] => true
  | (k, v) :: fs, (l, w) :: gs => k == l && (beqJ v w && beqF fs gs)
  | _, _ => false

end

/-- The boolean equalities `beqJ`, `beqF`, `beqL` decide propositional
equality. -/
theorem beq_iff_eq_all :
    (∀ a b, beqJ a b = true ↔ a = b) ∧
    (∀ fs gs, beqF fs gs = true ↔ fs = gs) ∧
    (∀ xs ys, beqL xs ys = true ↔ xs = ys) := by
  apply beqJ.mutual_induct
    (fun a b => beqJ a b = true ↔ a = b)
    (fun fs gs => beqF fs gs = true ↔ fs = gs)
    (fun xs ys => beqL xs ys = true ↔ xs = ys)
  · simp [beqJ]
  · intro a b; simp [beqJ]
  · intro a b; simp [beqJ]
  · intro a b; simp [beqJ]
  · intro xs ys h; simp [beqJ, h]
  · intro fs gs h; simp [beqJ, h]
  · intro t x h1 h2 h3 h4 h5 h6
    cases t <;> cases x <;> simp_all [beqJ]
  · simp [beqL]
  · intro x xs y ys h1 h2; simp [beqL, h1, h2]
  · intro t x h1 h2
    cases t <;> cases x <;>
      first
        | exact (h1 rfl rfl).elim
        | exact (h2 _ _ _ _ rfl rfl).elim
        | simp [beqL]
  · simp [beqF]
  · intro k v fs l w gs h1 h2; simp [beqF, h1, h2, and_assoc]
  · intro t x h1 h2
    cases t <;> cases x <;>
      first
        | exact (h1 rfl rfl).elim
        | exact (h2 _ _ _ _ _ _ rfl rfl).elim
        | simp [beqF]

instance : DecidableEq Json := fun a b =>
  decidable_of_iff (beqJ a b = true) (beq_iff_eq_all.1 a b)

/-- One segment of a path into a document: an object key or an array
index.  The differ produces only non-negative indices, so indices are
modelled as `Nat`. -/
inductive Seg where
  | field (s : String) : Seg
  | idx (n : Nat) : Seg
  deriving DecidableEq

/-- The kind of one structural change. -/
inductive ChangeKind where
  | added | removed | modified
  deriving DecidableEq

/-- One structural change between two documents, at a path, with the old
and new fragment when present. -/
structure ChangeRecord where
  kind : ChangeKind
  path : List Seg
  oldValue : Option Json
  newValue : Option Json
  deriving DecidableEq

/-- Insertion of one field into a key-sorted field list. -/
def insertField (f : String × Json) : List (String × Json) → List (String × Json)
  | [] => [f]
  | g :: gs => if f.1 ≤ g.1 then f :: g :: gs else g :: insertField f gs

/-- Insertion sort of an object field list by key. -/
def sortFields : List (String × Json) → List (String × Json)
  | [] => []
  | f :: fs => insertField f (sortFields fs)

mutual

/-- Recursively sorts every object field list of a document by key.
Dictionaries compare independently of key order in Python, so the differ
normalizes both inputs with this before the sorted-merge walk; the
specification, section 4.1, asks for mapping keys in canonical
lexicographic order. -/
def sortJson : Json → Json
  | Json.null => Json.null
  | Json.bool b => Json.bool b
  | Json.num n => Json.num n
  | Json.str s => Json.str s
  | Json.arr xs => Json.arr (sortJsonList xs)
  | Json.obj fs => Json.obj (sortFields (sortJsonFields fs))

/-- Maps `sortJson` over an array. -/
def sortJsonList : List Json → List Json
  | [] => []
  | x :: xs => sortJson x :: sortJsonList xs

/-- Maps `sortJson` over the values of a field list. -/
def sortJsonFields : List (String × Json) → List (String × Json)
  | [] => []
  | (k, v) :: fs => (k, sortJson v) :: sortJsonFields fs

end

mutual

/-- Modelled from the spec: the structural diff walk of section 4.1.  The
repository delegates diffing to the external DeepDiff library
(`DeepDiff(old, new, view="tree")` in `openapi_diff.py` and
`analyze_openapi_changes.py`), whose implementation is not in the
repository.  Mappings compare by key set (both sides arrive key-sorted,
see `deepDiff`): keys only in the new document are `added`, keys only in
the old one are `removed`, shared keys recurse; sequences compare
index-by-index with surplus indices added or removed; anything else
compares by deep equality and yields a single `modified` record carrying
both values. -/
def diffJ (p : List Seg) : Json → Json → List ChangeRecord
  | Json.obj fs, Json.obj gs => diffFields p fs gs
  | Json.arr xs, Json.arr ys => diffElems p 0 xs ys
  | a, b =>
      if a = b then []
      else [⟨ChangeKind.modified, p, some a, some b⟩]

/-- Sorted-merge walk over two key-sorted field lists: equal keys recurse,
a key only on the old side is `removed`, a key only on the new side is
`added`, in ascending key order. -/
def diffFields (p : List Seg) : List (String × Json) → List (String × Json) → List ChangeRecord
  | [], [] => []
  | [], (k, v) :: gs =>
      ⟨ChangeKind.added, p ++ [Seg.field k], none, some v⟩ :: diffFields p [] gs
  | (k, v) :: fs, [] =>
      ⟨ChangeKind.removed, p ++ [Seg.field k], some v, none⟩ :: diffFields p fs []
  | (k1, v1) :: fs, (k2, v2) :: gs =>
      if k1 = k2 then
        diffJ (p ++ [Seg.field k1]) v1 v2 ++ diffFields p fs gs
      else if k1 < k2 then
        ⟨ChangeKind.removed, p ++ [Seg.field k1], some v1, none⟩ :: diffFields p fs ((k2, v2) :: gs)
      else
        ⟨ChangeKind.added, p ++ [Seg.field k2], none, some v2⟩ :: diffFields p ((k1, v1) :: fs) gs

/-- Index-by-index walk over two arrays; indices past the shorter array
are added or removed. -/
def diffElems (p : List Seg) (i : Nat) : List Json → List Json → List ChangeRecord
  | [], [] => []
  | [], y :: ys =>
      ⟨ChangeKind.added, p ++ [Seg.idx i], none, some y⟩ :: diffElems p (i + 1) [] ys
  | x :: xs, [] =>
      ⟨ChangeKind.removed, p ++ [Seg.idx i], some x, none⟩ :: diffElems p (i + 1) xs []
  | x :: xs, y :: ys =>
      diffJ (p ++ [Seg.idx i]) x y ++ diffElems p (i + 1) xs ys

end

/-- Modelled from the spec: the whole-document diff, wrapping `diffJ`
after key-normalizing both sides.  This stands in for the external
`DeepDiff(old, new, view="tree")` call. -/
def deepDiff (old new : Json) : List ChangeRecord :=
  diffJ [] (sortJson old) (sortJson new)

/-- Swaps the direction of one change record: `added` and `removed`
exchange, `modified` keeps its kind, and the old and new values swap. -/
def swapRecord (r : ChangeRecord) : ChangeRecord where
  kind :=
    match r.kind with
    | ChangeKind.added => ChangeKind.removed
    | ChangeKind.removed => ChangeKind.added
    | ChangeKind.modified => ChangeKind.modified
  path := r.path
  oldValue := r.newValue
  newValue := r.oldValue

/-- A single-quote character as a string, used by the rendered path
format of DeepDiff. -/
def pyQuote : String := String.singleton (Char.ofNat 39)

/-- Renders one path segment the way DeepDiff renders it inside
`change.path()`: string keys in quoted brackets, indices in plain
brackets. -/
def segStr : Seg → String
  | Seg.field s => "[" ++ pyQuote ++ s ++ pyQuote ++ "]"
  | Seg.idx n => "[" ++ toString n ++ "]"

/-- Renders a whole path as DeepDiff `change.path()` does, for example
`root` followed by quoted-key brackets. -/
def renderPath (p : List Seg) : String :=
  "root" ++ String.join (p.map segStr)

/-- The Python type of a value, used to tell a value change from a type
change. -/
def pyType : Json → String
  | Json.null => "NoneType"
  | Json.bool _ => "bool"
  | Json.num _ => "int"
  | Json.str _ => "str"
  | Json.arr _ => "list"
  | Json.obj _ => "dict"

mutual

/-- Models Python `repr` on parsed JSON values: `None`, `True`, `False`,
numbers, quoted strings, lists in brackets and dicts in braces. -/
def pyRepr : Json → String
  | Json.null => "None"
  | Json.bool b => if b then "True" else "False"
  | Json.num n => toString n
  | Json.str s => pyQuote ++ s ++ pyQuote
  | Json.arr xs => "[" ++ pyReprList xs ++ "]"
  | Json.obj fs => "\x7b" ++ pyReprFields fs ++ "\x7d"

/-- Comma-joined `pyRepr` of list elements. -/
def pyReprList : List Json → String
  | [] => ""
  | [x] => pyRepr x
  | x :: xs => pyRepr x ++ ", " ++ pyReprList xs

/-- Comma-joined `pyRepr` of dict entries. -/
def pyReprFields : List (String × Json) → String
  | [] => ""
  | [(k, v)] => pyQuote ++ k ++ pyQuote ++ ": " ++ pyRepr v
  | (k, v) :: fs => pyQuote ++ k ++ pyQuote ++ ": " ++ pyRepr v ++ ", " ++ pyReprFields fs

end

/-- Models Python `str` on parsed JSON values: bare for strings, `repr`
otherwise. -/
def pyStr (v : Json) : String :=
  match v with
  | Json.str s => s
  | v => pyRepr v

/-- Models Python `str.upper`, per character (the change-type names are
ASCII). -/
def pyUpper (s : String) : String :=
  String.mk (s.data.map Char.toUpper)

/-- Models Python `str.lower`, per character. -/
def pyLower (s : String) : String :=
  String.mk (s.data.map Char.toLower)

/-- Models Python `"\n".join`. -/
def joinLines : List String → String
  | [] => ""
  | [l] => l
  | l :: ls => l ++ "\n" ++ joinLines ls

/-- Models Python `not s.strip()`: true iff every character is
whitespace. -/
def isBlank (s : String) : Bool :=
  s.data.all Char.isWhitespace

/-- True iff `n` occurs as a contiguous sublist of the second list. -/
def infixOf (n : List Char) : List Char → Bool
  | [] => n.isEmpty
  | c :: t => List.isPrefixOf n (c :: t) || infixOf n t

/-- Models the Python substring test `needle in hay` on strings. -/
def pyIn (needle hay : String) : Bool :=
  infixOf needle.data hay.data

/-- Models Python `data.get(key)` on a parsed-JSON dict: an absent key,
or a non-string key (parsed JSON objects only have string keys), yields
`None`. -/
def dictGet (fs : List (String × Json)) : Seg → Json
  | Seg.field k => (List.lookup k fs).getD Json.null
  | Seg.idx _ => Json.null

/-- True on the scalar values (everything except lists and dicts). -/
def isScalar : Json → Bool
  | Json.null => true
  | Json.bool _ => true
  | Json.num _ => true
  | Json.str _ => true
  | Json.arr _ => false
  | Json.obj _ => false

/-- The path walk `get_by_path` of `openapi_diff.py` (and the identical
`_get_by_path` of `app/comparator.py`).  `some v` is a normal return of
the Python value `v`; `none` models the uncaught `IndexError` raised when
an index is applied to a too-short list.  A dict step uses `dict.get`
(absent keys continue the walk on `None`), a non-index segment on a list
or any segment on a scalar returns `None` immediately. -/
def get_by_path : Json → List Seg → Option Json
  | d, [] => some d
  | Json.obj fs, k :: ks => get_by_path (dictGet fs k) ks
  | Json.arr xs, Seg.idx i :: ks =>
      match xs.get? i with
      | some x => get_by_path x ks
      | none => none
  | Json.arr _, Seg.field _ :: _ => some Json.null
  | _, _ :: _ => some Json.null

/-- The in-bounds precondition on a walk: along the exact route
`get_by_path` takes, every index applied to a list is within that list.
All other steps are unconstrained. -/
def inBounds : Json → List Seg → Bool
  | _, [] => true
  | Json.obj fs, k :: ks => inBounds (dictGet fs k) ks
  | Json.arr xs, Seg.idx i :: ks =>
      match xs.get? i with
      | some x => inBounds x ks
      | none => false
  | Json.arr _, Seg.field _ :: _ => true
  | _, _ :: _ => true

/-- Modelled from the spec: the value a PathAddress addresses in a
document (section 3) — every dict step must find its key and every array
step must be in range. -/
def strictAddr : Json → List Seg → Option Json
  | d, [] => some d
  | Json.obj fs, Seg.field k :: ks => (List.lookup k fs).bind (fun v => strictAddr v ks)
  | Json.arr xs, Seg.idx i :: ks => (xs.get? i).bind (fun v => strictAddr v ks)
  | _, _ => none

/-- The rule strings of `_is_api_change` in `app/comparator.py`. -/
def api_paths : List String :=
  ["paths",
   "components.schemas",
   "components.securitySchemes",
   "components.parameters",
   "components.responses"]

/-- The classifier `_is_api_change` of `app/comparator.py`: a change is
an API change iff one of the rule strings occurs as a substring of the
rendered path.  The value arguments are accepted and ignored, as in the
source. -/
def is_api_change (path : String) (old_val new_val : Option Json) : Bool :=
  api_paths.any (fun ap => pyIn ap path)

/-- The API-surface rule as the specification states it (section 4.2):
the first segment is `paths`, or the first two segments are `components`
followed by one of `securitySchemes`, `schemas`, `parameters`,
`responses`.  Stated over path segments, for comparison with the
substring behavior of `is_api_change`. -/
def specApiAffecting : List Seg → Bool
  | Seg.field "paths" :: _ => true
  | Seg.field "components" :: Seg.field c :: _ =>
      c = "securitySchemes" || c = "schemas" || c = "parameters" || c = "responses"
  | _ => false

/-- Outcome of the external OpenAI classification attempt inside
`classify_changes`, made an explicit parameter so the effectful call has
a faithful pure model.  `success` means the HTTP call returned and the
message content parsed as JSON with a `classification` entry, whose value
is the label.  `parseError` means `json.loads` on the content raised
`JSONDecodeError`, which the source catches and answers with the string
`Error`.  `apiFailure` is any other exception inside the `try` (transport
error, timeout, missing response field), answered by the substring
fallback.  `clientInitError` is an exception raised by the `OpenAI`
client constructor, which sits before the `try` and therefore propagates
out of `classify_changes`. -/
inductive ExtOutcome where
  | success (label : String) : ExtOutcome
  | parseError : ExtOutcome
  | apiFailure : ExtOutcome
  | clientInitError (msg : String) : ExtOutcome

/-- The rule-based fallback of `classify_changes`
(`analyze_openapi_changes.py`, lines 85-90): the verdict is `API Change`
iff the lowercased diff text contains `paths` or `endpoint` as a
substring, else `Production Update`. -/
def fallbackClassification (diff_text : String) : String :=
  if pyIn "paths" (pyLower diff_text) || pyIn "endpoint" (pyLower diff_text) then "API Change"
  else "Production Update"

/-- The function `classify_changes` of `analyze_openapi_changes.py`.
Blank diff text answers `No Changes` before the client is built; after
that the four external outcomes produce the label, the string `Error`,
the substring fallback, or a propagated exception (`Except.error`). -/
def classify_changes (ext : ExtOutcome) (diff_text : String) : Except String String :=
  if isBlank diff_text then Except.ok "No Changes"
  else
    match ext with
    | ExtOutcome.clientInitError m => Except.error m
    | ExtOutcome.success label => Except.ok label
    | ExtOutcome.parseError => Except.ok "Error"
    | ExtOutcome.apiFailure => Except.ok (fallbackClassification diff_text)

/-- The last segment of a path, if any. -/
def lastSeg (p : List Seg) : Option Seg :=
  p.getLast?

/-- Models the DeepDiff change-type name under which a record appears in
the tree view: dictionary or iterable item additions and removals
(according to the container the changed key lives in), `type_changes`
when the Python types of the two values differ, `values_changed`
otherwise. -/
def changeTypeName (r : ChangeRecord) : String :=
  match r.kind with
  | ChangeKind.added =>
      match lastSeg r.path with
      | some (Seg.idx _) => "iterable_item_added"
      | _ => "dictionary_item_added"
  | ChangeKind.removed =>
      match lastSeg r.path with
      | some (Seg.idx _) => "iterable_item_removed"
      | _ => "dictionary_item_removed"
  | ChangeKind.modified =>
      match r.oldValue, r.newValue with
      | some a, some b => if pyType a ≠ pyType b then "type_changes" else "values_changed"
      | _, _ => "values_changed"

/-- The change-type keys of the DeepDiff tree view, in the fixed
canonical order the model uses for iteration over `diff.items()`. -/
def deepDiffTypeOrder : List String :=
  ["type_changes",
   "dictionary_item_added",
   "dictionary_item_removed",
   "values_changed",
   "iterable_item_added",
   "iterable_item_removed"]

/-- Models the DeepDiff tree view as an association list from change-type
name to the records of that type, with empty types absent — exactly the
keys a Python `in` membership test on the result sees. -/
def groupDiffTree (recs : List ChangeRecord) : List (String × List ChangeRecord) :=
  deepDiffTypeOrder.filterMap (fun t =>
    match recs.filter (fun r => changeTypeName r = t) with
    | [] => none
    | l => some (t, l))

/-- The tree view of the diff of two documents, as
`DeepDiff(old, new, view="tree")` hands it to the scripts. -/
def deepDiffTree (old new : Json) : List (String × List ChangeRecord) :=
  groupDiffTree (deepDiff old new)

/-- Models `getattr(change, "t2", "REMOVED")` followed by `str` inside an
f-string: the new value when the record has one, the literal `REMOVED`
for removals. -/
def t2Str (r : ChangeRecord) : String :=
  match r.newValue with
  | some v => pyStr v
  | none => "REMOVED"

/-- Models `change.t1` rendered by `str` in an f-string; `not present`
stands for the DeepDiff not-present sentinel of records with no old
value. -/
def t1Str (r : ChangeRecord) : String :=
  match r.oldValue with
  | some v => pyStr v
  | none => "not present"

/-- The plain-text rendering of the diff built by `analyze_changes`
(lines 96-106): per change type an uppercased heading line, then one
indented line per change with its rendered path and new value, joined
with newlines. -/
def renderDiffText (tree : List (String × List ChangeRecord)) : String :=
  joinLines (tree.flatMap (fun e =>
    (pyUpper e.1 ++ ":") :: e.2.map (fun r => "  " ++ renderPath r.path ++ " -> " ++ t2Str r)))

/-- Ambient process state the scripts could read (the wall clock used by
`datetime.now` elsewhere in the repository).  It is threaded through the
renderers so that independence from it is statable; the rendering code in
`analyze_changes` and `_generate_categorized_diff` reads none of it. -/
structure Env where
  now : String

/-- Models the Python membership test of a string in a list of DeepDiff
change objects (`"dictionary_item_added" in paths_diff` on a tree-view
value): `in` compares the string by equality against each element, and a
string never equals a change object, so the test is false for every
element. -/
def pyInChanges (s : String) (l : List ChangeRecord) : Bool :=
  l.any (fun _ => false)

/-- Models the Python membership test of a key in the tree-view dict
(`"paths" in diff`): true iff the string is one of the change-type
keys. -/
def hasKeyTree (tree : List (String × List ChangeRecord)) (k : String) : Bool :=
  (List.lookup k tree).isSome

/-- Python repr of a list of strings, as interpolated by an f-string. -/
def pyStrListRepr (l : List String) : String :=
  "[" ++ joinCommas (l.map (fun s => pyQuote ++ s ++ pyQuote)) ++ "]"
where
  joinCommas : List String → String
    | [] => ""
    | [x] => x
    | x :: xs => x ++ ", " ++ joinCommas xs

/-- The Markdown construction of `analyze_changes` (lines 111-144),
taking the classification, the tree view and the plain diff text and
returning the joined report.  The three section guards test membership of
`paths`, `components` and `info` among the keys of the tree view, whose
keys are always change-type names; their bodies are therefore dead code
in the source and modelled to match what Python would compute on the
tree-view values (membership of a string in a list of change objects is
always false, and the chained `.get` for `securitySchemes` yields the
empty, falsy dict).  The `env` parameter is unread: the source computes
no wall-clock content here. -/
def render_markdown (env : Env) (classification : String)
    (tree : List (String × List ChangeRecord)) (diff_text : String) : String :=
  let sections : List String :=
    if classification ≠ "No Changes" then
      (if hasKeyTree tree "paths" then
        let paths_diff := (List.lookup "paths" tree).getD []
        ["## API Changes"] ++
          (if pyInChanges "dictionary_item_added" paths_diff then
            ["- **New endpoints:** " ++ pyStrListRepr (paths_diff.map (fun r => renderPath r.path))]
          else []) ++
          (if pyInChanges "dictionary_item_removed" paths_diff then
            ["- **Removed endpoints:** " ++ pyStrListRepr (paths_diff.map (fun r => renderPath r.path))]
          else []) ++
          (if pyInChanges "values_changed" paths_diff then
            ["- **Modified endpoints:** " ++ pyStrListRepr (paths_diff.map (fun r => renderPath r.path))]
          else [])
      else []) ++
      (if hasKeyTree tree "components" then
        let sec_diff : List ChangeRecord := []
        ["## Security Changes"] ++
          (if sec_diff ≠ [] then ["- **Security scheme changes:** unreachable"] else [])
      else []) ++
      (if hasKeyTree tree "info" then
        let info_diff := (List.lookup "info" tree).getD []
        ["## Documentation Changes"] ++
          (if pyInChanges "values_changed" info_diff then
            info_diff.map (fun r => "- **" ++ renderPath r.path ++ ":** " ++ t1Str r ++ " -> " ++ t2Str r)
          else [])
      else [])
    else []
  joinLines (["# " ++ classification ++ "\n"] ++ sections ++
    ["\n---\n## Raw Differences\n", "```diff", diff_text, "```"])

/-- The body of `analyze_changes` up to its `except` handler: diff the
documents, render the plain diff text, obtain the classification (the
only fallible step — `classify_changes` propagates a client-constructor
exception), and build the Markdown report. -/
def analyzeCore (env : Env) (ext : ExtOutcome) (old new : Json) :
    Except String (String × String) := do
  let tree := deepDiffTree old new
  let diff_text := renderDiffText tree
  let classification ← classify_changes ext diff_text
  Except.ok (classification, render_markdown env classification tree diff_text)

/-- The function `analyze_changes` of `analyze_openapi_changes.py`: the
whole body runs inside `try`, and any exception is answered by the pair
`("Error", "Failed to analyze changes: ...")`. -/
def analyze_changes (env : Env) (ext : ExtOutcome) (old new : Json) : String × String :=
  match analyzeCore env ext old new with
  | Except.ok r => r
  | Except.error e => ("Error", "Failed to analyze changes: " ++ e)

/-- A double-quote character as a string. -/
def dq : String := String.singleton (Char.ofNat 34)

/-- Escaping of one character inside a JSON string literal, as
`json.dumps` performs it for the characters the scripts can encounter. -/
def jsonEscapeChar (c : Char) : String :=
  if c = Char.ofNat 34 then "\\" ++ dq
  else if c = Char.ofNat 92 then "\\\\"
  else if c = Char.ofNat 10 then "\\n"
  else if c = Char.ofNat 13 then "\\r"
  else if c = Char.ofNat 9 then "\\t"
  else String.singleton c

/-- Escaping of a whole string for a JSON string literal. -/
def jsonEscape (s : String) : String :=
  String.join (s.data.map jsonEscapeChar)

/-- Two-space indentation of depth `n`, as `json.dumps(..., indent=2)`
produces. -/
def indentSp (n : Nat) : String :=
  String.join (List.replicate n "  ")

mutual

/-- Models `json.dumps(v, indent=2)` at nesting depth `ind`. -/
def pyDumps (ind : Nat) : Json → String
  | Json.null => "null"
  | Json.bool b => if b then "true" else "false"
  | Json.num n => toString n
  | Json.str s => dq ++ jsonEscape s ++ dq
  | Json.arr [] => "[]"
  | Json.arr (x :: xs) =>
      "[\n" ++ pyDumpsList (ind + 1) (x :: xs) ++ "\n" ++ indentSp ind ++ "]"
  | Json.obj [] => "\x7b\x7d"
  | Json.obj (f :: fs) =>
      "\x7b\n" ++ pyDumpsFields (ind + 1) (f :: fs) ++ "\n" ++ indentSp ind ++ "\x7d"

/-- Comma-and-newline joined dump of array elements. -/
def pyDumpsList (ind : Nat) : List Json → String
  | [] => ""
  | [x] => indentSp ind ++ pyDumps ind x
  | x :: xs => indentSp ind ++ pyDumps ind x ++ ",\n" ++ pyDumpsList ind xs

/-- Comma-and-newline joined dump of object entries. -/
def pyDumpsFields (ind : Nat) : List (String × Json) → String
  | [] => ""
  | [(k, v)] => indentSp ind ++ dq ++ jsonEscape k ++ dq ++ ": " ++ pyDumps ind v
  | (k, v) :: fs =>
      indentSp ind ++ dq ++ jsonEscape k ++ dq ++ ": " ++ pyDumps ind v ++ ",\n" ++
        pyDumpsFields ind fs

end

/-- One iteration of the change loop of `_generate_categorized_diff`: the
rendered path, the values looked up with `_get_by_path` in the original
documents (either lookup can raise on an out-of-range list index, which
propagates), the category decision by `_is_api_change`, and the Markdown
entry. -/
def entryFor (old new : Json) (r : ChangeRecord) : Option (Bool × String) :=
  match get_by_path old r.path, get_by_path new r.path with
  | some old_val, some new_val =>
      let path := renderPath r.path
      some (is_api_change path (some old_val) (some new_val),
        "### " ++ path ++ "\n**Old:**\n```json\n" ++ pyDumps 0 old_val ++
          "\n```\n**New:**\n```json\n" ++ pyDumps 0 new_val ++ "\n```\n")
  | _, _ => none

/-- The method `_generate_categorized_diff` of `app/comparator.py`
(taking the two parsed documents; file loading is outside the core): an
early return when the diff is empty, otherwise every change is rendered
into the `API Changes` or `Production Changes` bucket in diff order and
the non-empty buckets become sections.  `none` models a propagated
`IndexError` from `_get_by_path`.  The `env` parameter is unread: the
method computes no wall-clock content. -/
def generate_categorized_diff (env : Env) (old new : Json) : Option String := do
  let tree := deepDiffTree old new
  if tree = [] then
    some "# No Changes\nNo differences found in OpenAPI specs."
  else do
    let entries ← (tree.flatMap (fun e => e.2)).mapM (entryFor old new)
    let apiChanges := (entries.filter (fun e => e.1)).map (fun e => e.2)
    let prodChanges := (entries.filter (fun e => !e.1)).map (fun e => e.2)
    let content := ["# OpenAPI Specification Changes\n"] ++
      (if apiChanges ≠ [] then "## API Changes\n" :: apiChanges else []) ++
      (if prodChanges ≠ [] then "## Production Changes\n" :: prodChanges else [])
    some (joinLines content)

/-- Unfolding of `diffJ` when the two values are not both objects and not
both arrays: the walk compares by deep equality. -/
theorem diffJ_notStruct (p : List Seg) (a b : Json)
    (h1 : ∀ fs gs, a = Json.obj fs → b = Json.obj gs → False)
    (h2 : ∀ xs ys, a = Json.arr xs → b = Json.arr ys → False) :
    diffJ p a b = if a = b then [] else [⟨ChangeKind.modified, p, some a, some b⟩] := by
  cases a <;> cases b <;>
    first
      | exact (h1 _ _ rfl rfl).elim
      | exact (h2 _ _ rfl rfl).elim
      | simp [diffJ]

/-- Unfolding of the field merge when both heads share a key. -/
theorem diffFields_eq_key (p : List Seg) (k : String) (v1 v2 : Json)
    (fs gs : List (String × Json)) :
    diffFields p ((k, v1) :: fs) ((k, v2) :: gs) =
      diffJ (p ++ [Seg.field k]) v1 v2 ++ diffFields p fs gs := by
  simp [diffFields]

/-- Unfolding of the field merge when the old-side key is smaller. -/
theorem diffFields_lt_key (p : List Seg) (k1 : String) (v1 : Json)
    (fs : List (String × Json)) (k2 : String) (v2 : Json) (gs : List (String × Json))
    (hne : ¬k1 = k2) (hlt : k1 < k2) :
    diffFields p ((k1, v1) :: fs) ((k2, v2) :: gs) =
      ⟨ChangeKind.removed, p ++ [Seg.field k1], some v1, none⟩ ::
        diffFields p fs ((k2, v2) :: gs) := by
  simp [diffFields, hne, hlt]

/-- Unfolding of the field merge when the new-side key is smaller. -/
theorem diffFields_gt_key (p : List Seg) (k1 : String) (v1 : Json)
    (fs : List (String × Json)) (k2 : String) (v2 : Json) (gs : List (String × Json))
    (hne : ¬k1 = k2) (hnlt : ¬k1 < k2) :
    diffFields p ((k1, v1) :: fs) ((k2, v2) :: gs) =
      ⟨ChangeKind.added, p ++ [Seg.field k2], none, some v2⟩ ::
        diffFields p ((k1, v1) :: fs) gs := by
  simp [diffFields, hne, hnlt]

/-- Diffing any value, field list or array against itself yields no
records. -/
theorem diff_self_all :
    (∀ p a b, a = b → diffJ p a b = []) ∧
    (∀ p i xs ys, xs = ys → diffElems p i xs ys = []) ∧
    (∀ p fs gs, fs = gs → diffFields p fs gs = []) := by
  apply diffJ.mutual_induct
    (fun p a b => a = b → diffJ p a b = [])
    (fun p i xs ys => xs = ys → diffElems p i xs ys = [])
    (fun p fs gs => fs = gs → diffFields p fs gs = [])
  · intro p fs gs ih h
    injection h with h
    simp [diffJ, ih h]
  · intro p xs ys ih h
    injection h with h
    simp [diffJ, ih h]
  · intro p b h1 h2 _
    rw [diffJ_notStruct p b b h1 h2]
    simp
  · intro p a b h1 h2 hne h
    exact absurd h hne
  · intro p i _
    simp [diffElems]
  · intro p i y ys _ h
    simp at h
  · intro p i x xs _ h
    simp at h
  · intro p i x xs y ys ih1 ih2 h
    injection h with hx hxs
    simp [diffElems, ih1 hx, ih2 hxs]
  · intro p _
    simp [diffFields]
  · intro p k v gs _ h
    simp at h
  · intro p k v fs _ h
    simp at h
  · intro p v1 fs k2 v2 gs ih1 ih2 h
    simp only [List.cons.injEq, Prod.mk.injEq] at h
    rw [diffFields_eq_key]
    simp [ih1 h.1.2, ih2 h.2]
  · intro p k1 v1 fs k2 v2 gs hne hlt ih h
    simp only [List.cons.injEq, Prod.mk.injEq] at h
    exact absurd h.1.1 hne
  · intro p k1 v1 fs k2 v2 gs hne hnlt ih h
    simp only [List.cons.injEq, Prod.mk.injEq] at h
    exact absurd h.1.1 hne

/-- Swapping the direction twice restores a record. -/
theorem swapRecord_swapRecord (r : ChangeRecord) : swapRecord (swapRecord r) = r := by
  cases r with
  | mk k p o n => cases k <;> rfl

/-- Diffing in the reverse direction yields the direction-swapped records
in the same order. -/
theorem diff_swap_all :
    (∀ p a b, diffJ p b a = (diffJ p a b).map swapRecord) ∧
    (∀ p i xs ys, diffElems p i ys xs = (diffElems p i xs ys).map swapRecord) ∧
    (∀ p fs gs, diffFields p gs fs = (diffFields p fs gs).map swapRecord) := by
  apply diffJ.mutual_induct
    (fun p a b => diffJ p b a = (diffJ p a b).map swapRecord)
    (fun p i xs ys => diffElems p i ys xs = (diffElems p i xs ys).map swapRecord)
    (fun p fs gs => diffFields p gs fs = (diffFields p fs gs).map swapRecord)
  · intro p fs gs ih
    simpa [diffJ] using ih
  · intro p xs ys ih
    simpa [diffJ] using ih
  · intro p b h1 h2
    rw [diffJ_notStruct p b b h1 h2]
    simp
  · intro p a b h1 h2 hne
    rw [diffJ_notStruct p b a (fun fs gs hb ha => h1 gs fs ha hb)
      (fun xs ys hb ha => h2 ys xs ha hb)]
    rw [diffJ_notStruct p a b h1 h2]
    rw [if_neg hne, if_neg (fun h => hne h.symm)]
    simp [swapRecord]
  · intro p i
    simp [diffElems]
  · intro p i y ys ih
    simp [diffElems, ih, swapRecord]
  · intro p i x xs ih
    simp [diffElems, ih, swapRecord]
  · intro p i x xs y ys ih1 ih2
    simp [diffElems, ih1, ih2]
  · intro p
    simp [diffFields]
  · intro p k v gs ih
    simp [diffFields, ih, swapRecord]
  · intro p k v fs ih
    simp [diffFields, ih, swapRecord]
  · intro p v1 fs k2 v2 gs ih1 ih2
    rw [diffFields_eq_key, diffFields_eq_key]
    simp [ih1, ih2]
  · intro p k1 v1 fs k2 v2 gs hne hlt ih
    rw [diffFields_gt_key p k2 v2 gs k1 v1 fs (fun h => hne h.symm) (lt_asymm hlt)]
    rw [diffFields_lt_key p k1 v1 fs k2 v2 gs hne hlt]
    simp [ih, swapRecord]
  · intro p k1 v1 fs k2 v2 gs hne hnlt ih
    have hlt2 : k2 < k1 := lt_of_le_of_ne (le_of_not_lt hnlt) (fun h => hne h.symm)
    rw [diffFields_lt_key p k2 v2 gs k1 v1 fs (fun h => hne h.symm) hlt2]
    rw [diffFields_gt_key p k1 v1 fs k2 v2 gs hne hnlt]
    simp [ih, swapRecord]

/-- Every `modified` record the walk emits carries two present, unequal
values. -/
theorem diff_modified_all :
    (∀ p a b, ∀ r ∈ diffJ p a b, r.kind = ChangeKind.modified →
      ∃ x y, r.oldValue = some x ∧ r.newValue = some y ∧ x ≠ y) ∧
    (∀ p i xs ys, ∀ r ∈ diffElems p i xs ys, r.kind = ChangeKind.modified →
      ∃ x y, r.oldValue = some x ∧ r.newValue = some y ∧ x ≠ y) ∧
    (∀ p fs gs, ∀ r ∈ diffFields p fs gs, r.kind = ChangeKind.modified →
      ∃ x y, r.oldValue = some x ∧ r.newValue = some y ∧ x ≠ y) := by
  apply diffJ.mutual_induct
    (fun p a b => ∀ r ∈ diffJ p a b, r.kind = ChangeKind.modified →
      ∃ x y, r.oldValue = some x ∧ r.newValue = some y ∧ x ≠ y)
    (fun p i xs ys => ∀ r ∈ diffElems p i xs ys, r.kind = ChangeKind.modified →
      ∃ x y, r.oldValue = some x ∧ r.newValue = some y ∧ x ≠ y)
    (fun p fs gs => ∀ r ∈ diffFields p fs gs, r.kind = ChangeKind.modified →
      ∃ x y, r.oldValue = some x ∧ r.newValue = some y ∧ x ≠ y)
  · intro p fs gs ih r hr
    simp only [diffJ] at hr
    exact ih r hr
  · intro p xs ys ih r hr
    simp only [diffJ] at hr
    exact ih r hr
  · intro p b h1 h2 r hr
    rw [diffJ_notStruct p b b h1 h2] at hr
    simp at hr
  · intro p a b h1 h2 hne r hr _
    rw [diffJ_notStruct p a b h1 h2, if_neg hne] at hr
    simp at hr
    subst hr
    exact ⟨a, b, rfl, rfl, hne⟩
  · intro p i r hr
    simp [diffElems] at hr
  · intro p i y ys ih r hr hk
    rw [diffElems] at hr
    rcases List.mem_cons.mp hr with h | h
    · subst h; simp at hk
    · exact ih r h hk
  · intro p i x xs ih r hr hk
    rw [diffElems] at hr
    rcases List.mem_cons.mp hr with h | h
    · subst h; simp at hk
    · exact ih r h hk
  · intro p i x xs y ys ih1 ih2 r hr hk
    rw [diffElems] at hr
    rcases List.mem_append.mp hr with h | h
    · exact ih1 r h hk
    · exact ih2 r h hk
  · intro p r hr
    simp [diffFields] at hr
  · intro p k v gs ih r hr hk
    rw [diffFields] at hr
    rcases List.mem_cons.mp hr with h | h
    · subst h; simp at hk
    · exact ih r h hk
  · intro p k v fs ih r hr hk
    rw [diffFields] at hr
    rcases List.mem_cons.mp hr with h | h
    · subst h; simp at hk
    · exact ih r h hk
  · intro p v1 fs k2 v2 gs ih1 ih2 r hr hk
    rw [diffFields_eq_key] at hr
    rcases List.mem_append.mp hr with h | h
    · exact ih1 r h hk
    · exact ih2 r h hk
  · intro p k1 v1 fs k2 v2 gs hne hlt ih r hr hk
    rw [diffFields_lt_key p k1 v1 fs k2 v2 gs hne hlt] at hr
    rcases List.mem_cons.mp hr with h | h
    · subst h; simp at hk
    · exact ih r h hk
  · intro p k1 v1 fs k2 v2 gs hne hnlt ih r hr hk
    rw [diffFields_gt_key p k1 v1 fs k2 v2 gs hne hnlt] at hr
    rcases List.mem_cons.mp hr with h | h
    · subst h; simp at hk
    · exact ih r h hk

/-- Diffing a document against itself yields no records. -/
theorem deepDiff_self (d : Json) : deepDiff d d = [] :=
  diff_self_all.1 [] (sortJson d) (sortJson d) rfl

/-- Reversed diff as swapped records, at the document level. -/
theorem deepDiff_swap (a b : Json) :
    deepDiff b a = (deepDiff a b).map swapRecord :=
  diff_swap_all.1 [] (sortJson a) (sortJson b)

/-- Membership in a direction-swapped record list. -/
theorem mem_map_swapRecord (r : ChangeRecord) (l : List ChangeRecord) :
    r ∈ l.map swapRecord ↔ swapRecord r ∈ l := by
  constructor
  · intro h
    rcases List.mem_map.mp h with ⟨y, hy, hyr⟩
    rwa [← hyr, swapRecord_swapRecord]
  · intro h
    exact List.mem_map.mpr ⟨swapRecord r, h, swapRecord_swapRecord r⟩

/-- The change-type name of any record is one of the canonical tree-view
keys. -/
theorem changeTypeName_mem (r : ChangeRecord) : changeTypeName r ∈ deepDiffTypeOrder := by
  rcases r with ⟨k, p, o, n⟩
  cases k
  · cases h : lastSeg p with
    | none => simp [changeTypeName, h, deepDiffTypeOrder]
    | some sg => cases sg <;> simp [changeTypeName, h, deepDiffTypeOrder]
  · cases h : lastSeg p with
    | none => simp [changeTypeName, h, deepDiffTypeOrder]
    | some sg => cases sg <;> simp [changeTypeName, h, deepDiffTypeOrder]
  · cases o <;> cases n <;> simp [changeTypeName, deepDiffTypeOrder] <;> split <;> tauto

/-- Grouping no records yields the empty tree view. -/
theorem groupDiffTree_nil : groupDiffTree [] = [] := rfl

/-- Grouping a non-empty record list yields a non-empty tree view. -/
theorem groupDiffTree_ne_nil (recs : List ChangeRecord) (h : recs ≠ []) :
    groupDiffTree recs ≠ [] := by
  rcases recs with _ | ⟨r, rest⟩
  · exact absurd rfl h
  · intro hb
    rw [groupDiffTree, List.filterMap_eq_nil] at hb
    have hm := hb (changeTypeName r) (changeTypeName_mem r)
    have hr : r ∈ (r :: rest).filter (fun x => changeTypeName x = changeTypeName r) := by
      simp [List.mem_filter]
    rcases hfe : (r :: rest).filter (fun x => changeTypeName x = changeTypeName r) with _ | ⟨a, l⟩
    · rw [hfe] at hr
      simp at hr
    · rw [hfe] at hm
      simp at hm

/-- Every key of a grouped tree view is a canonical change-type name. -/
theorem groupDiffTree_keys (recs : List ChangeRecord) :
    ∀ e ∈ groupDiffTree recs, e.1 ∈ deepDiffTypeOrder := by
  intro e he
  rw [groupDiffTree] at he
  rcases List.mem_filterMap.mp he with ⟨t, ht, hsome⟩
  rcases hfe : recs.filter (fun r => changeTypeName r = t) with _ | ⟨a, l⟩ <;> rw [hfe] at hsome
  · simp at hsome
  · rw [Option.some_inj] at hsome
    rw [← hsome]
    exact ht

/-- Blankness distributes over string append. -/
theorem isBlank_append (a b : String) : isBlank (a ++ b) = (isBlank a && isBlank b) := by
  simp [isBlank, String.data_append, List.all_append]

/-- A joined line list is blank exactly when every line is blank. -/
theorem isBlank_joinLines (ls : List String) :
    isBlank (joinLines ls) = ls.all (fun l => isBlank l) := by
  have hnl : isBlank "\n" = true := by decide
  induction ls with
  | nil => rfl
  | cons l ls ih =>
    cases ls with
    | nil => simp [joinLines, isBlank]
    | cons l2 ls2 =>
      rw [show joinLines (l :: l2 :: ls2) = l ++ "\n" ++ joinLines (l2 :: ls2) from rfl]
      rw [isBlank_append, isBlank_append, hnl, ih]
      simp [Bool.and_assoc]

/-- The uppercased heading line of a change type is never blank. -/
theorem typeLine_not_blank (t : String) (h : t ∈ deepDiffTypeOrder) :
    isBlank (pyUpper t ++ ":") = false := by
  simp [deepDiffTypeOrder] at h
  rcases h with rfl | rfl | rfl | rfl | rfl | rfl <;> decide

/-- The plain-text diff rendering of a non-empty tree view with canonical
keys is not blank. -/
theorem renderDiffText_not_blank (tree : List (String × List ChangeRecord))
    (hne : tree ≠ []) (hkeys : ∀ e ∈ tree, e.1 ∈ deepDiffTypeOrder) :
    isBlank (renderDiffText tree) = false := by
  rcases tree with _ | ⟨e, rest⟩
  · exact absurd rfl hne
  · rw [renderDiffText, isBlank_joinLines]
    have h1 : isBlank (pyUpper e.1 ++ ":") = false :=
      typeLine_not_blank e.1 (hkeys e (by simp))
    rw [List.all_eq_false]
    refine ⟨pyUpper e.1 ++ ":", ?_, by simp [h1]⟩
    simp [List.flatMap_cons]

/-- The plain diff text of a comparison is blank exactly when the diff is
empty. -/
theorem diffText_blank_iff (old new : Json) :
    isBlank (renderDiffText (deepDiffTree old new)) = true ↔ deepDiff old new = [] := by
  constructor
  · intro hb
    by_contra h
    have hf := renderDiffText_not_blank (deepDiffTree old new)
      (groupDiffTree_ne_nil _ h) (groupDiffTree_keys _)
    rw [hb] at hf
    cases hf
  · intro h
    rw [deepDiffTree, h, groupDiffTree_nil]
    decide

/-- The classification `analyze_changes` computes when the external call
fails with a transport-style error: blank diff text answers No Changes,
anything else the substring fallback. -/
theorem analyze_apiFailure_classification (env : Env) (old new : Json) :
    (analyze_changes env ExtOutcome.apiFailure old new).1 =
      if isBlank (renderDiffText (deepDiffTree old new)) then "No Changes"
      else fallbackClassification (renderDiffText (deepDiffTree old new)) := by
  by_cases h : isBlank (renderDiffText (deepDiffTree old new)) = true
  · simp [analyze_changes, analyzeCore, classify_changes, h, bind, Except.bind]
  · simp only [Bool.not_eq_true] at h
    simp [analyze_changes, analyzeCore, classify_changes, h, bind, Except.bind]

/-- The full result pair `analyze_changes` computes when the external
call fails with a transport-style error on a non-empty diff: the
fallback classification and the rendered report. -/
theorem analyze_apiFailure_eq (env : Env) (old new : Json)
    (hb : isBlank (renderDiffText (deepDiffTree old new)) = false) :
    analyze_changes env ExtOutcome.apiFailure old new =
      (fallbackClassification (renderDiffText (deepDiffTree old new)),
       render_markdown env (fallbackClassification (renderDiffText (deepDiffTree old new)))
         (deepDiffTree old new) (renderDiffText (deepDiffTree old new))) := by
  simp [analyze_changes, analyzeCore, classify_changes, hb, bind, Except.bind]

/-- The full result pair `analyze_changes` computes when the external
response is malformed on a non-empty diff: the Error classification and
the rendered report. -/
theorem analyze_parseError_eq (env : Env) (old new : Json)
    (hb : isBlank (renderDiffText (deepDiffTree old new)) = false) :
    analyze_changes env ExtOutcome.parseError old new =
      ("Error", render_markdown env "Error" (deepDiffTree old new)
        (renderDiffText (deepDiffTree old new))) := by
  simp [analyze_changes, analyzeCore, classify_changes, hb, bind, Except.bind]

/-- Old document of the documentation-change example: an info title. -/
def docInfoOld : Json := Json.obj [("info", Json.obj [("title", Json.str "A")])]

/-- New document of the documentation-change example: the title now
mentions the word Endpoint. -/
def docInfoNew : Json := Json.obj [("info", Json.obj [("title", Json.str "Endpoint B")])]

/-- The diff of the documentation-change example: one modified record at
the title. -/
theorem deepDiff_docInfo :
    deepDiff docInfoOld docInfoNew =
      [⟨ChangeKind.modified, [Seg.field "info", Seg.field "title"],
        some (Json.str "A"), some (Json.str "Endpoint B")⟩] := by
  simp [deepDiff, docInfoOld, docInfoNew, sortJson, sortJsonFields, sortJsonList,
    sortFields, insertField, diffJ, diffFields]

/-- The tree view of the documentation-change example. -/
theorem tree_docInfo :
    deepDiffTree docInfoOld docInfoNew =
      [("values_changed",
        [⟨ChangeKind.modified, [Seg.field "info", Seg.field "title"],
          some (Json.str "A"), some (Json.str "Endpoint B")⟩])] := by
  rw [deepDiffTree, deepDiff_docInfo]
  rfl

/-- The plain diff text of the documentation-change example. -/
theorem dt_docInfo :
    renderDiffText (deepDiffTree docInfoOld docInfoNew) =
      "VALUES_CHANGED:\n  root[" ++ pyQuote ++ "info" ++ pyQuote ++ "][" ++ pyQuote ++
        "title" ++ pyQuote ++ "] -> Endpoint B" := by
  rw [tree_docInfo]
  rfl

/-- Old document of the new-endpoint example: one path. -/
def docPathsOld : Json := Json.obj [("paths", Json.obj [("/a", Json.str "x")])]

/-- New document of the new-endpoint example: a second path appears. -/
def docPathsNew : Json :=
  Json.obj [("paths", Json.obj [("/a", Json.str "x"), ("/b", Json.str "y")])]

/-- The diff of the new-endpoint example: one added record under
`paths`. -/
theorem deepDiff_docPaths :
    deepDiff docPathsOld docPathsNew =
      [⟨ChangeKind.added, [Seg.field "paths", Seg.field "/b"], none, some (Json.str "y")⟩] := by
  have h1 : (['/', 'a'] ≤ ['/', 'b']) := by decide
  simp [deepDiff, docPathsOld, docPathsNew, sortJson, sortJsonFields, sortJsonList,
    sortFields, insertField, diffJ, diffFields, h1]

/-- The tree view of the new-endpoint example. -/
theorem tree_docPaths :
    deepDiffTree docPathsOld docPathsNew =
      [("dictionary_item_added",
        [⟨ChangeKind.added, [Seg.field "paths", Seg.field "/b"], none, some (Json.str "y")⟩])] := by
  rw [deepDiffTree, deepDiff_docPaths]
  rfl

/-- The plain diff text of the new-endpoint example. -/
theorem dt_docPaths :
    renderDiffText (deepDiffTree docPathsOld docPathsNew) =
      "DICTIONARY_ITEM_ADDED:\n  root[" ++ pyQuote ++ "paths" ++ pyQuote ++ "][" ++ pyQuote ++
        "/b" ++ pyQuote ++ "] -> y" := by
  rw [tree_docPaths]
  rfl

/-- C1: the claim says a change is classified API-affecting exactly when
its path starts with `paths` or one of the `components` subtrees.  The
source decides by substring matching on the rendered path, which
diverges in both directions: the security-scheme path of scenario 4 of
the specification starts with `components.securitySchemes` (the spec
rule answers true) but none of the rule strings — which contain literal
dots — occurs in the rendered `root` bracket form, so `is_api_change`
answers false; conversely a nested field literally named `paths` under
`info` (the spec rule answers false) contains the substring `paths`, so
`is_api_change` answers true. -/
theorem c1_is_api_change_diverges :
    specApiAffecting
        [Seg.field "components", Seg.field "securitySchemes", Seg.field "api_key"] = true ∧
    is_api_change
        (renderPath [Seg.field "components", Seg.field "securitySchemes", Seg.field "api_key"])
        none none = false ∧
    specApiAffecting [Seg.field "info", Seg.field "paths"] = false ∧
    is_api_change (renderPath [Seg.field "info", Seg.field "paths"]) none none = true := by
  refine ⟨by decide, by decide, by decide, by decide⟩

/-- C4: diffing any document against itself yields no change records,
and the analysis pipeline then reports the No Changes classification no
matter how the external call would have gone. -/
theorem c4_self_diff (env : Env) (ext : ExtOutcome) (d : Json) :
    deepDiff d d = [] ∧ (analyze_changes env ext d d).1 = "No Changes" := by
  refine ⟨deepDiff_self d, ?_⟩
  have h : deepDiffTree d d = [] := by
    rw [deepDiffTree, deepDiff_self, groupDiffTree_nil]
  have hb : isBlank (renderDiffText (deepDiffTree d d)) = true := by
    rw [h]
    decide
  simp [analyze_changes, analyzeCore, classify_changes, hb, bind, Except.bind]

/-- C5: the differ is symmetric in kind — an added record at a path in
one direction is a removed record with the same path and value in the
other, and a modified record keeps its path with the two values
swapped. -/
theorem c5_diff_symmetry (A B : Json) (p : List Seg) :
    (∀ v, (⟨ChangeKind.added, p, none, some v⟩ : ChangeRecord) ∈ deepDiff A B ↔
      (⟨ChangeKind.removed, p, some v, none⟩ : ChangeRecord) ∈ deepDiff B A) ∧
    (∀ v1 v2, (⟨ChangeKind.modified, p, some v1, some v2⟩ : ChangeRecord) ∈ deepDiff A B ↔
      (⟨ChangeKind.modified, p, some v2, some v1⟩ : ChangeRecord) ∈ deepDiff B A) := by
  constructor
  · intro v
    rw [deepDiff_swap A B, mem_map_swapRecord]
    exact Iff.rfl.symm
  · intro v1 v2
    rw [deepDiff_swap A B, mem_map_swapRecord]
    exact Iff.rfl.symm

/-- C6: report rendering is deterministic and reads no ambient state —
the Markdown construction of `analyze_changes` and the categorized
renderer of the comparator are functions of their declared inputs alone,
so two renderings under different ambient environments (and a fortiori
two renderings of the same inputs) yield byte-identical text. -/
theorem c6_render_deterministic (e1 e2 : Env) (c : String)
    (tree : List (String × List ChangeRecord)) (dt : String) (old new : Json) :
    render_markdown e1 c tree dt = render_markdown e2 c tree dt ∧
    generate_categorized_diff e1 old new = generate_categorized_diff e2 old new :=
  ⟨rfl, rfl⟩

/-- C8: every modified record the differ emits carries a present old
value and a present new value that are not deep-structurally equal. -/
theorem c8_modified_values_differ (old new : Json) (r : ChangeRecord)
    (hr : r ∈ deepDiff old new) (hk : r.kind = ChangeKind.modified) :
    ∃ x y, r.oldValue = some x ∧ r.newValue = some y ∧ x ≠ y :=
  diff_modified_all.1 [] (sortJson old) (sortJson new) r hr hk

/-- Witness for C8 at the documentation-change example. -/
theorem c8_modified_values_differ_witness :
    ∃ x y,
      (⟨ChangeKind.modified, [Seg.field "info", Seg.field "title"],
        some (Json.str "A"), some (Json.str "Endpoint B")⟩ : ChangeRecord).oldValue = some x ∧
      (⟨ChangeKind.modified, [Seg.field "info", Seg.field "title"],
        some (Json.str "A"), some (Json.str "Endpoint B")⟩ : ChangeRecord).newValue = some y ∧
      x ≠ y :=
  c8_modified_values_differ docInfoOld docInfoNew _
    (by rw [deepDiff_docInfo]; simp) rfl

/-- C9: `analyze_changes` is total — it always returns a classification
and report pair — and when its body fails (the only fallible step is the
external-client construction propagating out of `classify_changes`), the
`except` handler answers the Error classification with a message
describing the failure instead of raising. -/
theorem c9_total_and_catches (env : Env) (ext : ExtOutcome) (old new : Json) :
    (∃ c s, analyze_changes env ext old new = (c, s)) ∧
    (∀ m, analyzeCore env ext old new = Except.error m →
      analyze_changes env ext old new = ("Error", "Failed to analyze changes: " ++ m)) := by
  constructor
  · exact ⟨_, _, rfl⟩
  · intro m h
    simp [analyze_changes, h]

/-- Witness for C9: with no usable client the analysis returns the Error
pair rather than raising. -/
theorem c9_total_and_catches_witness :
    analyze_changes ⟨"2025-01-01"⟩ (ExtOutcome.clientInitError "boom") docInfoOld docInfoNew =
      ("Error", "Failed to analyze changes: " ++ "boom") :=
  (c9_total_and_catches ⟨"2025-01-01"⟩ (ExtOutcome.clientInitError "boom")
      docInfoOld docInfoNew).2 "boom"
    (by simp only [analyzeCore, tree_docInfo]; rfl)

/-- C10: the path walk returns the Python value `None` — never an
exception — when a segment is applied to a scalar, when a non-index
segment is applied to a list, or when a key is absent from a dict; under
the precondition that every index applied to a list along the walk is in
range, the walk is total, and whenever the path strictly addresses a
value in the document the walk returns exactly that value. -/
theorem c10_get_by_path_safe :
    (∀ (d : Json) (k : Seg) (ks : List Seg), isScalar d = true →
      get_by_path d (k :: ks) = some Json.null) ∧
    (∀ (xs : List Json) (s : String) (ks : List Seg),
      get_by_path (Json.arr xs) (Seg.field s :: ks) = some Json.null) ∧
    (∀ (fs : List (String × Json)) (k : String) (ks : List Seg),
      List.lookup k fs = none →
      get_by_path (Json.obj fs) (Seg.field k :: ks) = some Json.null) ∧
    (∀ (d : Json) (p : List Seg), inBounds d p = true → (get_by_path d p).isSome = true) ∧
    (∀ (d : Json) (p : List Seg) (v : Json), strictAddr d p = some v →
      get_by_path d p = some v) := by
  refine ⟨?_, ?_, ?_, ?_, ?_⟩
  · intro d k ks h
    cases d <;> simp_all [get_by_path, isScalar]
  · intro xs s ks
    rfl
  · intro fs k ks h
    cases ks <;> simp [get_by_path, dictGet, h]
  · intro d p
    induction p generalizing d with
    | nil => intro _; rw [get_by_path]; rfl
    | cons k ks ih =>
      intro h
      cases d with
      | obj fs =>
        rw [get_by_path]
        exact ih _ (by rwa [inBounds] at h)
      | arr xs =>
        cases k with
        | field s => rfl
        | idx i =>
          rw [get_by_path]
          rw [inBounds] at h
          cases hx : xs.get? i with
          | none => rw [hx] at h; simp at h
          | some x =>
            rw [hx] at h
            exact ih _ h
      | null => rfl
      | bool b => rfl
      | num n => rfl
      | str s => rfl
  · intro d p
    induction p generalizing d with
    | nil =>
      intro v h
      rw [strictAddr] at h
      rw [get_by_path, h]
    | cons k ks ih =>
      intro v h
      cases d with
      | obj fs =>
        cases k with
        | field s =>
          rw [strictAddr] at h
          cases hl : List.lookup s fs with
          | none => rw [hl] at h; simp at h
          | some w =>
            rw [hl] at h
            simp only [Option.some_bind] at h
            rw [get_by_path]
            rw [show dictGet fs (Seg.field s) = w by simp [dictGet, hl]]
            exact ih w v h
        | idx i =>
          exact Option.noConfusion h
      | arr xs =>
        cases k with
        | field s => exact Option.noConfusion h
        | idx i =>
          rw [strictAddr] at h
          cases hx : xs.get? i with
          | none => rw [hx] at h; simp at h
          | some x =>
            rw [hx] at h
            simp only [Option.some_bind] at h
            rw [get_by_path, hx]
            exact ih x v h
      | null => cases k <;> exact Option.noConfusion h
      | bool b => cases k <;> exact Option.noConfusion h
      | num n => cases k <;> exact Option.noConfusion h
      | str s => cases k <;> exact Option.noConfusion h

/-- Witness for C10 at concrete data: a segment on a scalar, a string
segment on a list, an absent dict key, an in-bounds walk, and a strict
address. -/
theorem c10_get_by_path_safe_witness :
    get_by_path (Json.num 3) [Seg.field "a"] = some Json.null ∧
    get_by_path (Json.arr [Json.str "x"]) [Seg.field "k"] = some Json.null ∧
    get_by_path (Json.obj [("a", Json.num 1)]) [Seg.field "b", Seg.idx 0] = some Json.null ∧
    (get_by_path (Json.obj [("a", Json.arr [Json.num 7])]) [Seg.field "a", Seg.idx 0]).isSome
      = true ∧
    get_by_path (Json.obj [("a", Json.arr [Json.num 7])]) [Seg.field "a", Seg.idx 0] =
      some (Json.num 7) :=
  ⟨c10_get_by_path_safe.1 (Json.num 3) (Seg.field "a") [] rfl,
   c10_get_by_path_safe.2.1 [Json.str "x"] "k" [],
   c10_get_by_path_safe.2.2.1 [("a", Json.num 1)] "b" [Seg.idx 0] rfl,
   c10_get_by_path_safe.2.2.2.1 (Json.obj [("a", Json.arr [Json.num 7])])
     [Seg.field "a", Seg.idx 0] rfl,
   c10_get_by_path_safe.2.2.2.2 (Json.obj [("a", Json.arr [Json.num 7])])
     [Seg.field "a", Seg.idx 0] (Json.num 7) rfl⟩

/-- C2 counterexample: in the rule-based path the verdict is not a
function of the records under the API-affecting categories.  Both
documents differ only in the info title — whose path the
specification rule classifies as non-API — yet because the new title
contains the word Endpoint, the fallback answers API Change instead of
Production Update. -/
theorem c2_counterexample :
    (analyze_changes ⟨"2025-01-01"⟩ ExtOutcome.apiFailure docInfoOld docInfoNew).1
      = "API Change" ∧
    deepDiff docInfoOld docInfoNew ≠ [] ∧
    (∀ r ∈ deepDiff docInfoOld docInfoNew, specApiAffecting r.path = false) := by
  refine ⟨?_, ?_, ?_⟩
  · rw [analyze_apiFailure_classification, dt_docInfo]
    rfl
  · rw [deepDiff_docInfo]
    simp
  · intro r hr
    rw [deepDiff_docInfo] at hr
    simp at hr
    subst hr
    rfl

/-- C2 (amended): the comparison yields No Changes exactly when the diff
is empty; in the rule-based fallback path a non-empty diff yields
exactly one of API Change and Production Update, and API Change holds
iff the lowercased diff text contains `paths` or `endpoint` as a
substring — not iff some record is in an API-affecting category. -/
theorem c2_verdict_amended (env : Env) (old new : Json) :
    ((analyze_changes env ExtOutcome.apiFailure old new).1 = "No Changes" ↔
      deepDiff old new = []) ∧
    (deepDiff old new ≠ [] →
      ((analyze_changes env ExtOutcome.apiFailure old new).1 = "API Change" ∨
        (analyze_changes env ExtOutcome.apiFailure old new).1 = "Production Update")) ∧
    (deepDiff old new ≠ [] →
      ((analyze_changes env ExtOutcome.apiFailure old new).1 = "API Change" ↔
        (pyIn "paths" (pyLower (renderDiffText (deepDiffTree old new))) = true ∨
          pyIn "endpoint" (pyLower (renderDiffText (deepDiffTree old new))) = true))) := by
  have hc := analyze_apiFailure_classification env old new
  by_cases hb : isBlank (renderDiffText (deepDiffTree old new)) = true
  · have hdiff : deepDiff old new = [] := (diffText_blank_iff old new).mp hb
    rw [hc, if_pos hb]
    exact ⟨by simp [hdiff], fun h => absurd hdiff h, fun h => absurd hdiff h⟩
  · have hdiff : deepDiff old new ≠ [] := by
      intro h
      exact hb ((diffText_blank_iff old new).mpr h)
    rw [hc, if_neg hb]
    refine ⟨?_, ?_, ?_⟩
    · refine iff_of_false ?_ hdiff
      rw [fallbackClassification]
      by_cases hq : (pyIn "paths" (pyLower (renderDiffText (deepDiffTree old new))) ||
          pyIn "endpoint" (pyLower (renderDiffText (deepDiffTree old new)))) = true
      · rw [if_pos hq]; decide
      · rw [if_neg hq]; decide
    · intro _
      rw [fallbackClassification]
      by_cases hq : (pyIn "paths" (pyLower (renderDiffText (deepDiffTree old new))) ||
          pyIn "endpoint" (pyLower (renderDiffText (deepDiffTree old new)))) = true
      · left; rw [if_pos hq]
      · right; rw [if_neg hq]
    · intro _
      rw [fallbackClassification]
      by_cases hq : (pyIn "paths" (pyLower (renderDiffText (deepDiffTree old new))) ||
          pyIn "endpoint" (pyLower (renderDiffText (deepDiffTree old new)))) = true
      · rw [if_pos hq]
        simp only [Bool.or_eq_true] at hq
        exact iff_of_true rfl hq
      · rw [if_neg hq]
        refine iff_of_false (by decide) ?_
        simpa [Bool.or_eq_true] using hq

/-- Witness for C2 (amended) at the new-endpoint example. -/
theorem c2_verdict_amended_witness :
    (analyze_changes ⟨"2025-01-01"⟩ ExtOutcome.apiFailure docPathsOld docPathsNew).1
        = "API Change" ∨
    (analyze_changes ⟨"2025-01-01"⟩ ExtOutcome.apiFailure docPathsOld docPathsNew).1
        = "Production Update" :=
  (c2_verdict_amended ⟨"2025-01-01"⟩ docPathsOld docPathsNew).2.1
    (by rw [deepDiff_docPaths]; simp)

/-- C3 counterexample: a malformed external response (a content string
`json.loads` cannot parse) does not fall back to the rule-based verdict
— the comparison reports the Error verdict, while the rule-based
fallback at the same input would have been a non-error verdict. -/
theorem c3_counterexample :
    (analyze_changes ⟨"2025-01-01"⟩ ExtOutcome.parseError docInfoOld docInfoNew).1
      = "Error" ∧
    fallbackClassification (renderDiffText (deepDiffTree docInfoOld docInfoNew)) ≠ "Error" := by
  constructor
  · have hb : isBlank (renderDiffText (deepDiffTree docInfoOld docInfoNew)) = false := by
      rw [dt_docInfo]
      rfl
    rw [analyze_parseError_eq ⟨"2025-01-01"⟩ docInfoOld docInfoNew hb]
  · rw [dt_docInfo]
    decide

/-- C3 (amended): a transport-style failure of the external call
(timeout, connection error) is recovered locally — the verdict is the
rule-based fallback and never the Error verdict; a malformed response
instead yields the Error verdict, though still inside a normally
produced report and without propagating an exception. -/
theorem c3_fallback_amended (env : Env) (old new : Json) (h : deepDiff old new ≠ []) :
    (analyze_changes env ExtOutcome.apiFailure old new).1 =
      fallbackClassification (renderDiffText (deepDiffTree old new)) ∧
    (analyze_changes env ExtOutcome.apiFailure old new).1 ≠ "Error" ∧
    analyze_changes env ExtOutcome.parseError old new =
      ("Error", render_markdown env "Error" (deepDiffTree old new)
        (renderDiffText (deepDiffTree old new))) := by
  have hb : isBlank (renderDiffText (deepDiffTree old new)) = false := by
    cases hca : isBlank (renderDiffText (deepDiffTree old new)) with
    | true => exact absurd ((diffText_blank_iff old new).mp hca) h
    | false => rfl
  have hbn : ¬isBlank (renderDiffText (deepDiffTree old new)) = true := by simp [hb]
  refine ⟨?_, ?_, ?_⟩
  · rw [analyze_apiFailure_classification, if_neg hbn]
  · rw [analyze_apiFailure_classification, if_neg hbn, fallbackClassification]
    by_cases hq : (pyIn "paths" (pyLower (renderDiffText (deepDiffTree old new))) ||
        pyIn "endpoint" (pyLower (renderDiffText (deepDiffTree old new)))) = true
    · rw [if_pos hq]; decide
    · rw [if_neg hq]; decide
  · simp [analyze_changes, analyzeCore, classify_changes, hb, bind, Except.bind]

/-- Witness for C3 (amended) at the documentation-change example. -/
theorem c3_fallback_amended_witness :
    analyze_changes ⟨"2025-01-01"⟩ ExtOutcome.parseError docInfoOld docInfoNew =
      ("Error", render_markdown ⟨"2025-01-01"⟩ "Error" (deepDiffTree docInfoOld docInfoNew)
        (renderDiffText (deepDiffTree docInfoOld docInfoNew))) :=
  (c3_fallback_amended ⟨"2025-01-01"⟩ docInfoOld docInfoNew
    (by rw [deepDiff_docInfo]; simp)).2.2

/-- C7: the section guards of the Markdown builder test `paths`,
`components` and `info` against the keys of the tree view, which are
always change-type names, so no category section is ever emitted: at a
new-endpoint input the NewEndpoint category is non-empty and the verdict
is API Change, yet the rendered report contains no `## API Changes`
section heading. -/
theorem c7_section_missing :
    deepDiff docPathsOld docPathsNew =
      [⟨ChangeKind.added, [Seg.field "paths", Seg.field "/b"], none, some (Json.str "y")⟩] ∧
    (analyze_changes ⟨"2025-01-01"⟩ ExtOutcome.apiFailure docPathsOld docPathsNew).1
      = "API Change" ∧
    pyIn "## API Changes"
      (analyze_changes ⟨"2025-01-01"⟩ ExtOutcome.apiFailure docPathsOld docPathsNew).2
      = false := by
  refine ⟨deepDiff_docPaths, ?_, ?_⟩
  · rw [analyze_apiFailure_classification, dt_docPaths]
    rfl
  · have hb : isBlank (renderDiffText (deepDiffTree docPathsOld docPathsNew)) = false := by
      rw [dt_docPaths]
      rfl
    rw [analyze_apiFailure_eq ⟨"2025-01-01"⟩ docPathsOld docPathsNew hb]
    have hfb : fallbackClassification (renderDiffText (deepDiffTree docPathsOld docPathsNew))
        = "API Change" := by
      rw [dt_docPaths]
      rfl
    show pyIn "## API Changes"
      (render_markdown ⟨"2025-01-01"⟩
        (fallbackClassification (renderDiffText (deepDiffTree docPathsOld docPathsNew)))
        (deepDiffTree docPathsOld docPathsNew)
        (renderDiffText (deepDiffTree docPathsOld docPathsNew))) = false
    rw [hfb, dt_docPaths, tree_docPaths]
    rfl
